import Mathlib

/-!
Verification development for the credential-provider machinery of the
secret-santa repository (Deno/TypeScript, vendored `aws_api` client).

The definitions below are a shallow embedding of the source:

* `Credentials`, `CredentialsProviderChain.*` embed
  `CredentialsProviderChain.getCredentials` (client/credentials.ts lines 16-48);
* `SharedIniFileCredentials.load` embeds the profile lookup (lines 103-126)
  over the section map produced by the ini-parsing collaborator;
* `EcsTaskCredentials.*` embed the cache/expiry state machine shared verbatim
  by `EcsTaskCredentials.getCredentials` (lines 196-216),
  `TokenFileWebIdentityCredentials.getCredentials` (lines 273-293) and
  `EC2MetadataCredentials.getCredentials` (lines 338-358);
* `IMDSv2.*` embed the instance-metadata client constructor and the token
  sub-protocol (client/instance-metadata.ts).

Modelling conventions: timestamps are integer milliseconds (`Int`, the
`valueOf` of a JS `Date`); a JS value that may be `undefined`/`null` is an
`Option`; JS string truthiness (`""` is falsy) is `jsTruthy`; a rejected
promise is an `Except.error` carrying the summary string the chain would
render for it (first line of `err.stack`, falling back to `err.message`);
numbers stay in the exactly-representable integer range, so the JS double
arithmetic on them is exact and `Math.floor` on an already-integral value is
the identity.  Asynchronous resolution is modelled two ways: a settled-value
semantics (`EcsTaskCredentials.getCredentials`), where each call is given the
outcome the underlying `load()` would settle to, and a promise-slot semantics
(`EcsTaskCredentials.getCredentialsCall`), which tracks only the identity of
the in-flight promise stored in the `#promise` field and counts how many
underlying `load()` operations have been started.
-/

namespace AwsApi

/-- The credential value (`Credentials` in client/common.ts): access key,
secret, optional session token, optional expiry (ms timestamp), optional
region. -/
structure Credentials where
  awsAccessKeyId : String
  awsSecretKey : String
  sessionToken : Option String := none
  expiresAt : Option Int := none
  region : Option String := none
deriving DecidableEq, Repr

deriving instance DecidableEq for Except

/-- JS truthiness of an optional string: `undefined`/`null` and `""` are
falsy, every other string is truthy. -/
def jsTruthy : Option String → Bool
  | none => false
  | some s => !s.isEmpty

/-- One entry of a chain: the factory's label (the factory source text with
the `() => new ` head stripped, credentials.ts line 33) and the outcome its
`getCredentials()` settles to.  Providers memoize their first resolution in
their `#promise` field, so the outcome of a given provider instance is a
fixed value; a factory that throws during construction is also an `error`
outcome, because the chain runs `providerFunc()` inside the same `try`
(line 28). -/
structure ProviderSpec where
  label : String
  outcome : Except String Credentials
deriving DecidableEq, Repr

/-- The error summary of a failing provider (`""` for a succeeding one). -/
def ProviderSpec.outcomeErr (p : ProviderSpec) : String :=
  match p.outcome with
  | .error e => e
  | .ok _ => ""

namespace CredentialsProviderChain

/-- One recorded failure line, `srcName + summary` where
`srcName = '    - ' + providerLabel + ' '` (credentials.ts lines 33-37). -/
def errLine (label summary : String) : String :=
  "    - " ++ label ++ " " ++ summary

/-- The failure lines discovery records when every provider is attempted and
fails: one line per provider, in configured order. -/
def discoverLines (ps : List ProviderSpec) : List String :=
  ps.map fun p => errLine p.label p.outcomeErr

/-- The aggregate discovery failure message,
`['Failed to load any possible AWS credentials:', ...errors].join('\n')`
(credentials.ts lines 44-46). -/
def aggMsg (errs : List String) : String :=
  String.intercalate "\n" ("Failed to load any possible AWS credentials:" :: errs)

/-- Result of one top-level `getCredentials()` call: the settled result, the
`#supplier` field afterwards (as an index into the chain), and the indices of
the providers whose resolution was invoked, in invocation order. -/
structure Run where
  result : Except String Credentials
  supplier : Option Nat
  invoked : List Nat
deriving DecidableEq, Repr

/-- The discovery loop (credentials.ts lines 25-46): instantiate and invoke
each remaining factory in order; on the first success set `#supplier` and
return immediately; on failure append a labeled failure line and continue;
after exhaustion reject with the aggregate message.  `base` is the absolute
index of the first remaining factory and `errs` the lines recorded so far. -/
def discoverAux : List ProviderSpec → Nat → List String → Run
  | [], _, errs => ⟨.error (aggMsg errs), none, []⟩
  | p :: rest, base, errs =>
    match p.outcome with
    | .ok c => ⟨.ok c, some base, [base]⟩
    | .error e =>
      let r := discoverAux rest (base + 1) (errs ++ [errLine p.label e])
      ⟨r.result, r.supplier, base :: r.invoked⟩

/-- The outcome of the provider at index `i` (the pinned provider's memoized
`getCredentials()`). -/
def outcomeAt (ps : List ProviderSpec) (i : Nat) : Except String Credentials :=
  ((ps.get? i).map ProviderSpec.outcome).getD (.error "")

/-- `CredentialsProviderChain.getCredentials` (credentials.ts lines 22-47):
if `#supplier` is set, delegate to it directly and return whatever it
produces; otherwise run discovery from the first factory. -/
def getCredentials (ps : List ProviderSpec) : Option Nat → Run
  | some i => ⟨outcomeAt ps i, some i, [i]⟩
  | none => discoverAux ps 0 []

end CredentialsProviderChain

/-- A parsed ini section as consumed by `SharedIniFileCredentials.load`
(credentials.ts lines 105-114): the fields the loader reads, each possibly
absent.  The parsed file is an association list from section name to
section. -/
structure IniProfileData where
  aws_access_key_id : Option String := none
  aws_secret_access_key : Option String := none
  aws_session_token : Option String := none
  region : Option String := none
deriving DecidableEq, Repr

namespace SharedIniFileCredentials

/-- Section choice (credentials.ts line 115):
``data[`profile ${profile}`] ?? data[profile]`` — the `"profile <name>"`
section wins over the bare `<name>` section. -/
def lookupSection (data : List (String × IniProfileData)) (profile : String) :
    Option IniProfileData :=
  match data.lookup ("profile " ++ profile) with
  | some config => some config
  | none => data.lookup profile

/-- Message of the error thrown when no section matches (line 116). -/
def notFoundMsg (profile : String) : String :=
  "Profile " ++ profile ++ " not found in credentials file"

/-- Message of the error thrown when the section is present but the JS
truthiness test on `aws_access_key_id` / `aws_secret_access_key` fails
(lines 117-119). -/
def lacksStaticMsg (profile : String) : String :=
  "Profile " ++ profile ++ " lacks static credentials"

/-- `SharedIniFileCredentials.load` (credentials.ts lines 103-126) from the
parsed section map on: pick the section, require truthy access-key-id and
secret-key fields, and build the credential value with optional session
token and region. -/
def load (data : List (String × IniProfileData)) (profile : String) :
    Except String Credentials :=
  match lookupSection data profile with
  | none => .error (notFoundMsg profile)
  | some config =>
    if !jsTruthy config.aws_access_key_id || !jsTruthy config.aws_secret_access_key then
      .error (lacksStaticMsg profile)
    else
      .ok { awsAccessKeyId := config.aws_access_key_id.getD ""
            awsSecretKey := config.aws_secret_access_key.getD ""
            sessionToken := config.aws_session_token
            expiresAt := none
            region := config.region }

/-- Promise slot of `SharedIniFileCredentials.getCredentials` (lines 98-101):
`if (!this.#promise) this.#promise = this.load(); return this.#promise;`.
`promiseId` identifies the stored promise (the serial number of the `load()`
call that created it) and `opCount` counts the `load()` operations started
so far. -/
structure FlightState where
  promiseId : Option Nat := none
  opCount : Nat := 0
deriving DecidableEq, Repr

/-- One `getCredentials()` call in the promise-slot semantics: return the
stored promise if present, else start one `load()` and store it. -/
def getCredentialsCall (s : FlightState) : Nat × FlightState :=
  match s.promiseId with
  | some p => (p, s)
  | none => (s.opCount, ⟨some s.opCount, s.opCount + 1⟩)

/-- `n` consecutive `getCredentials()` calls, collecting the promise each
caller receives. -/
def callRun (s : FlightState) : Nat → List Nat × FlightState
  | 0 => ([], s)
  | n + 1 =>
    let (p, s1) := getCredentialsCall s
    let (ps, s2) := callRun s1 n
    (p :: ps, s2)

end SharedIniFileCredentials

namespace EcsTaskCredentials

/-- The cache fields shared by the three network-backed providers:
`#promise` (here: the settled outcome of the stored promise) and
`#expireAfter` (ms timestamp). -/
structure CacheState where
  promise : Option (Except String Credentials) := none
  expireAfter : Option Int := none
deriving DecidableEq, Repr

/-- `EcsTaskCredentials.getCredentials` (credentials.ts lines 196-216), the
same code appearing verbatim in `TokenFileWebIdentityCredentials` (lines
273-293) and `EC2MetadataCredentials` (lines 338-358), in the settled-value
semantics.  `now` is the current time and `loadResult` the outcome the
underlying `load()` would settle to if started by this call.  Steps:
(1) if `#expireAfter` is set and strictly before `now`, clear both fields;
(2) if `#promise` is empty, start `load()`; when it settles with a
credential whose `expiresAt` is strictly in the future, set `#expireAfter`
to `expiresAt - 60s`; when it rejects, set `#expireAfter` to `now + 30s`
and keep the rejection;
(3) return the stored promise.  The third component reports whether this
call started an underlying `load()`. -/
def getCredentials (now : Int) (loadResult : Except String Credentials)
    (s : CacheState) : Except String Credentials × CacheState × Bool :=
  let s1 : CacheState :=
    match s.expireAfter with
    | some e => if e < now then ⟨none, none⟩ else s
    | none => s
  match s1.promise with
  | some r => (r, s1, false)
  | none =>
    match loadResult with
    | .ok x =>
      let ea : Option Int :=
        match x.expiresAt with
        | some t => if now < t then some (t - 60000) else s1.expireAfter
        | none => s1.expireAfter
      (.ok x, ⟨some (.ok x), ea⟩, true)
    | .error e =>
      (.error e, ⟨some (.error e), some (now + 30000)⟩, true)

/-- A sequence of `getCredentials()` calls in the settled-value semantics:
each list entry is the call time together with the outcome a fresh `load()`
would settle to at that call.  Collects `(result, startedLoad)` per call. -/
def serveRun (s : CacheState) :
    List (Int × Except String Credentials) →
      List (Except String Credentials × Bool) × CacheState
  | [] => ([], s)
  | (t, lr) :: rest =>
    let (r, s1, d) := getCredentials t lr s
    let (rs, s2) := serveRun s1 rest
    ((r, d) :: rs, s2)

/-- Promise slot of the same `getCredentials` (lines 196-216) in the
promise-slot semantics, for calls that arrive while the stored promise is
still pending: the expiry discard runs first, then the slot is either
returned as-is or filled by starting one `load()`.  (While a `load()` is
pending, `#expireAfter` is whatever it was when the load started: the
settlement handlers have not run yet.) -/
structure FlightState where
  promiseId : Option Nat := none
  expireAfter : Option Int := none
  opCount : Nat := 0
deriving DecidableEq, Repr

/-- One `getCredentials()` call in the promise-slot semantics. -/
def getCredentialsCall (now : Int) (s : FlightState) : Nat × FlightState :=
  let s1 : FlightState :=
    match s.expireAfter with
    | some e => if e < now then ⟨none, none, s.opCount⟩ else s
    | none => s
  match s1.promiseId with
  | some p => (p, s1)
  | none => (s1.opCount, ⟨some s1.opCount, s1.expireAfter, s1.opCount + 1⟩)

/-- Consecutive `getCredentials()` calls at the given times, all issued
before the in-flight resolution settles. -/
def callRun (s : FlightState) : List Int → List Nat × FlightState
  | [] => ([], s)
  | t :: ts =>
    let (p, s1) := getCredentialsCall t s
    let (ps, s2) := callRun s1 ts
    (p :: ps, s2)

end EcsTaskCredentials

/-- The environment, `Deno.env.get`. -/
def EnvMap : Type := String → Option String

namespace IMDSv2

/-- Constructor options of `IMDSv2` (instance-metadata.ts lines 354-368)
with their defaults. -/
structure Opts where
  serviceEndpoint : Option String := none
  endpointMode : Option String := none
  endpointPath : String := "latest/"
  timeoutMs : Int := 1000
  apiTimeoutMs : Int := 5000
  tokenTtlSeconds : Nat := 21600
deriving DecidableEq, Repr

/-- A constructed `IMDSv2` client: the fields set by the constructor
(lines 395-403).  `baseUrl = new URL(endpointPath, serviceEndpoint)` is kept
as its two components, URL resolution being an external collaborator. -/
structure Inst where
  serviceEndpoint : String
  endpointPath : String
  timeoutMs : Int
  apiTimeoutMs : Int
  tokenTtlSeconds : Nat
deriving DecidableEq, Repr

/-- Message of the error the constructor throws when the kill switch is on
(lines 374-375). -/
def disabledMsg : String :=
  "IMDSv2 client is disabled via environment: AWS_EC2_METADATA_DISABLED=true"

/-- The `IMDSv2` constructor (instance-metadata.ts lines 353-399): throw
when `AWS_EC2_METADATA_DISABLED` equals `'true'`; otherwise resolve the
service endpoint from the option, the endpoint environment variable, or the
IPv4/IPv6 fixed address selected by `endpointMode` and its environment
variable.  No network interaction occurs: the result is computed from the
options and the environment alone. -/
def construct (env : EnvMap) (opts : Opts) : Except String Inst :=
  if env "AWS_EC2_METADATA_DISABLED" = some "true" then
    .error disabledMsg
  else
    let fromOptOrEnv : Option String :=
      if jsTruthy opts.serviceEndpoint then opts.serviceEndpoint
      else env "AWS_EC2_METADATA_SERVICE_ENDPOINT"
    let endpoint : String :=
      if jsTruthy fromOptOrEnv then fromOptOrEnv.getD ""
      else
        let mode : Option String :=
          if !jsTruthy opts.endpointMode &&
              env "AWS_EC2_METADATA_SERVICE_ENDPOINT_MODE" = some "IPv6" then
            some "IPv6"
          else opts.endpointMode
        if mode = some "IPv6" then "http://[fd00:ec2::254]"
        else "http://169.254.169.254"
    .ok ⟨endpoint, opts.endpointPath, opts.timeoutMs, opts.apiTimeoutMs,
         opts.tokenTtlSeconds⟩

/-- The client built by `new IMDSv2` with all defaults in an environment
where neither metadata variable is set. -/
def defaultInst : Inst :=
  ⟨"http://169.254.169.254", "latest/", 1000, 5000, 21600⟩

/-- The timeout `fetchNewToken` passes to the raw token request (line 429):
`this.cachedToken ? this.apiTimeoutMs : this.timeoutMs`, evaluated at the
state holding when the fetch starts. -/
def fetchTimeout (inst : Inst) (cachedToken : Option String) : Int :=
  if jsTruthy cachedToken then inst.apiTimeoutMs else inst.timeoutMs

/-- Round a rational to the nearest integer with ties to even — the rounding
the IEEE-754 default mode applies to a scaled significand. -/
def roundNearestEven (q : ℚ) : ℤ :=
  if q - ⌊q⌋ < 1 / 2 then ⌊q⌋
  else if 1 / 2 < q - ⌊q⌋ then ⌊q⌋ + 1
  else if 2 ∣ ⌊q⌋ then ⌊q⌋ else ⌊q⌋ + 1

/-- IEEE-754 binary64 rounding of a (rational) real value: scale to a 53-bit
significand by the power of two selected from the leading-bit position,
round to nearest with ties to even, scale back.  Overflow and subnormals are
not modelled: every quantity the token protocol computes lies far inside the
normal range. -/
def fl (x : ℚ) : ℚ :=
  if x = 0 then 0
  else (roundNearestEven (x / 2 ^ (Int.log 2 |x| - 52)) : ℚ) *
    2 ^ (Int.log 2 |x| - 52)

/-- The binary64 value of the source literal `0.95`: the representable
number `8556839292003942 * 2^(-53)`, slightly below 19/20 (`fl_point95`
below proves it is what binary64 rounding makes of 19/20). -/
def c095 : ℚ := 8556839292003942 / 2 ^ 53

/-- The second component `fetchNewToken` returns (line 436):
`Math.floor(ttlSeconds * 0.95 * 1000)` with both products evaluated in
binary64 arithmetic — each rounds to the nearest double.  `ttlSeconds` (an
integer far below 2^53) and `1000` are exactly representable, so only the
literal `0.95` (the double `c095`) and the two products round. -/
def fetchExpireAfterMillis (inst : Inst) : Int :=
  Int.floor (fl (fl ((inst.tokenTtlSeconds : ℚ) * c095) * 1000))

/-- The token-cache state: the `cachedToken` field (line 405). -/
structure TokenState where
  cachedToken : Option String := none
deriving DecidableEq, Repr

/-- What one token fetch did: the timeout used for the PUT to `api/token`
and the `setTimeout` delay scheduled for the proactive invalidation of the
fetched token (line 414-418: `Math.max(1000, expireAfterMillis)`). -/
structure FetchRecord where
  timeoutMs : Int
  scheduledDelayMs : Int
deriving DecidableEq, Repr

/-- Events driving the token cache: a `getToken()` call (with the token
text the endpoint would return) or the firing of a scheduled invalidation
timer for a previously fetched token. -/
inductive TokenEvent
  | getToken (freshToken : String)
  | timerFire (tok : String)
deriving DecidableEq, Repr

/-- One step of the token protocol.  `getToken` (lines 406-421): if
`cachedToken` is truthy return it with no fetch; otherwise run
`fetchNewToken` — whose timeout ternary reads the same `cachedToken` —
store the fresh token and schedule its invalidation.  `timerFire tok`
(lines 414-418): null `cachedToken` only if it still holds `tok`. -/
def tokenStep (inst : Inst) (s : TokenState) :
    TokenEvent → TokenState × Option FetchRecord
  | .getToken fresh =>
    if jsTruthy s.cachedToken then (s, none)
    else
      (⟨some fresh⟩,
       some ⟨fetchTimeout inst s.cachedToken,
             max 1000 (fetchExpireAfterMillis inst)⟩)
  | .timerFire tok =>
    (if s.cachedToken = some tok then ⟨none⟩ else s, none)

/-- A sequence of token-cache events, collecting one `FetchRecord` per
token fetch performed. -/
def tokenRun (inst : Inst) (s : TokenState) :
    List TokenEvent → TokenState × List FetchRecord
  | [] => (s, [])
  | e :: es =>
    let (s1, r) := tokenStep inst s e
    let (s2, rs) := tokenRun inst s1 es
    (s2, r.toList ++ rs)

end IMDSv2

namespace EC2MetadataCredentials

/-- The `EC2MetadataCredentials` constructor (credentials.ts lines 330-334):
`this.#service = opts.client ?? new IMDSv2` — with no client supplied it
constructs an `IMDSv2` with all defaults, so a throwing `IMDSv2` constructor
makes the provider construction itself throw before any resolution. -/
def construct (env : EnvMap) (client : Option IMDSv2.Inst) :
    Except String IMDSv2.Inst :=
  match client with
  | some c => .ok c
  | none => IMDSv2.construct env {}

end EC2MetadataCredentials

/-! Concrete inputs used by the witness theorems. -/

/-- A concrete credential value. -/
def credW : Credentials :=
  { awsAccessKeyId := "AKIDEXAMPLE", awsSecretKey := "wJalrXUtnFEMI" }

/-- A concrete three-provider chain whose second provider is the first to
succeed. -/
def psW : List ProviderSpec :=
  [⟨"EnvironmentCredentials(AWS)", .error "Error: AWS environment variables not set"⟩,
   ⟨"SharedIniFileCredentials()", .ok credW⟩,
   ⟨"EcsTaskCredentials()", .error "Error: AWS_CONTAINER_CREDENTIALS_RELATIVE_URI not set"⟩]

/-- A concrete chain in which every provider fails. -/
def psFailW : List ProviderSpec :=
  [⟨"EnvironmentCredentials(AWS)", .error "Error: AWS environment variables not set"⟩,
   ⟨"EC2MetadataCredentials()", .error IMDSv2.disabledMsg⟩]

/-- A concrete parsed credentials file: section `profile foo` with complete
static credentials, plus a bare `foo` decoy section to exercise precedence. -/
def iniDataW : List (String × IniProfileData) :=
  [("profile foo", { aws_access_key_id := some "AKIDEXAMPLE",
                     aws_secret_access_key := some "wJalrXUtnFEMI",
                     aws_session_token := some "tok",
                     region := some "eu-west-1" }),
   ("foo", { aws_access_key_id := some "OTHER", aws_secret_access_key := some "OTHER" })]

/-- A concrete parsed credentials file whose matching section carries both
static-credential fields, the access-key-id one being the empty string. -/
def iniDataEmptyKeyW : List (String × IniProfileData) :=
  [("default", { aws_access_key_id := some "",
                 aws_secret_access_key := some "wJalrXUtnFEMI" })]

/-- An environment in which only the metadata kill switch is set. -/
def envDisabledW : EnvMap :=
  fun k => if k = "AWS_EC2_METADATA_DISABLED" then some "true" else none

/-- A metadata client constructed with `tokenTtlSeconds = 3` and every other
option left at its default. -/
def ttl3Inst : IMDSv2.Inst :=
  ⟨"http://169.254.169.254", "latest/", 1000, 5000, 3⟩

/-! Helper lemmas about the chain discovery loop. -/

namespace CredentialsProviderChain

theorem discoverAux_all_fail (ps : List ProviderSpec) :
    ∀ (base : Nat) (errs : List String),
      (∀ p ∈ ps, ∃ e, p.outcome = .error e) →
      discoverAux ps base errs =
        ⟨.error (aggMsg (errs ++ discoverLines ps)), none,
         List.range' base ps.length⟩ := by
  induction ps with
  | nil => intro base errs _; simp [discoverAux, discoverLines]
  | cons p rest ih =>
    intro base errs hall
    obtain ⟨e, he⟩ := hall p (List.mem_cons_self p rest)
    have hrest : ∀ q ∈ rest, ∃ d, q.outcome = .error d :=
      fun q hq => hall q (List.mem_cons_of_mem p hq)
    simp only [discoverAux, he, ih (base + 1) _ hrest]
    simp [discoverLines, ProviderSpec.outcomeErr, he, List.append_assoc,
      List.range'_succ]

theorem discoverAux_first_success (ps : List ProviderSpec) :
    ∀ (k : Nat) (hk : k < ps.length) (base : Nat) (errs : List String)
      (c : Credentials),
      (∀ j (hj : j < k), ∃ e, (ps.get ⟨j, hj.trans hk⟩).outcome = .error e) →
      (ps.get ⟨k, hk⟩).outcome = .ok c →
      discoverAux ps base errs =
        ⟨.ok c, some (base + k), List.range' base (k + 1)⟩ := by
  induction ps with
  | nil => intro k hk; exact absurd hk (Nat.not_lt_zero k)
  | cons p rest ih =>
    intro k hk base errs c hfail hsucc
    cases k with
    | zero =>
      have hp : p.outcome = .ok c := hsucc
      simp [discoverAux, hp, List.range']
    | succ k =>
      obtain ⟨e, he⟩ := hfail 0 (Nat.succ_pos k)
      have hp : p.outcome = .error e := he
      have hk2 : k < rest.length := Nat.lt_of_succ_lt_succ hk
      have hfail2 : ∀ j (hj : j < k),
          ∃ d, (rest.get ⟨j, hj.trans hk2⟩).outcome = .error d := by
        intro j hj
        obtain ⟨d, hd⟩ := hfail (j + 1) (Nat.succ_lt_succ hj)
        exact ⟨d, hd⟩
      have hsucc2 : (rest.get ⟨k, hk2⟩).outcome = .ok c := hsucc
      simp only [discoverAux, hp]
      rw [ih k hk2 (base + 1) (errs ++ [errLine p.label e]) c hfail2 hsucc2]
      have h1 : base + 1 + k = base + (k + 1) := by omega
      simp [h1, List.range'_succ]

theorem discoverAux_error_all_fail (ps : List ProviderSpec) :
    ∀ (base : Nat) (errs : List String) (msg : String),
      (discoverAux ps base errs).result = .error msg →
      ∀ p ∈ ps, ∃ e, p.outcome = .error e := by
  induction ps with
  | nil => intro _ _ _ _ p hp; exact absurd hp (List.not_mem_nil p)
  | cons p rest ih =>
    intro base errs msg hres q hq
    cases hp : p.outcome with
    | ok c => simp [discoverAux, hp] at hres
    | error e =>
      rcases List.mem_cons.mp hq with hq | hq
      · exact ⟨e, hq ▸ hp⟩
      · simp only [discoverAux, hp] at hres
        exact ih (base + 1) (errs ++ [errLine p.label e]) msg hres q hq

end CredentialsProviderChain

/-! Claim theorems about the chain. -/

namespace CredentialsProviderChain

/-- C1: for every chain in which provider `k` (0-indexed here) is the first
whose resolution succeeds, the first top-level resolve instantiates and
invokes providers `0..k` each exactly once in configured order, sets the
`#supplier` field to provider `k`, and returns its credential without
attempting any later provider; a subsequent top-level resolve (the chain
state now carries the pinned index) delegates directly to provider `k` and
invokes no other provider. -/
theorem chain_pins_first_success (ps : List ProviderSpec) (k : Nat)
    (hk : k < ps.length) (c : Credentials)
    (hfail : ∀ j (hj : j < k), ∃ e, (ps.get ⟨j, hj.trans hk⟩).outcome = .error e)
    (hsucc : (ps.get ⟨k, hk⟩).outcome = .ok c) :
    getCredentials ps none = ⟨.ok c, some k, List.range (k + 1)⟩ ∧
    getCredentials ps (some k) = ⟨.ok c, some k, [k]⟩ := by
  constructor
  · show discoverAux ps 0 [] = _
    rw [discoverAux_first_success ps k hk 0 [] c hfail hsucc]
    simp [List.range_eq_range']
  · show (⟨outcomeAt ps k, some k, [k]⟩ : Run) = _
    rw [outcomeAt, List.get?_eq_get hk]
    simp only [Option.map_some', Option.getD_some]
    rw [hsucc]

/-- Witness for C1: the concrete chain `psW`, whose second provider (index 1)
is the first to succeed. -/
theorem chain_pins_first_success_witness :
    getCredentials psW none = ⟨.ok credW, some 1, List.range 2⟩ ∧
    getCredentials psW (some 1) = ⟨.ok credW, some 1, [1]⟩ :=
  chain_pins_first_success psW 1 (by decide) credW
    (by intro j hj; interval_cases j; exact ⟨_, rfl⟩) rfl

/-- C2: during discovery the chain rejects with the aggregate error exactly
when every configured provider fails, and the aggregate message is then the
header line followed by one line per attempted provider, each line carrying
the identity label of that provider and its failure summary. -/
theorem chain_aggregate_iff (ps : List ProviderSpec) :
    ((∃ msg, (getCredentials ps none).result = .error msg) ↔
      ∀ p ∈ ps, ∃ e, p.outcome = .error e) ∧
    ((∀ p ∈ ps, ∃ e, p.outcome = .error e) →
      (getCredentials ps none).result =
        .error (String.intercalate "\n"
          ("Failed to load any possible AWS credentials:" ::
            ps.map fun p => errLine p.label p.outcomeErr))) := by
  have hall : (∀ p ∈ ps, ∃ e, p.outcome = .error e) →
      (getCredentials ps none).result =
        .error (String.intercalate "\n"
          ("Failed to load any possible AWS credentials:" ::
            ps.map fun p => errLine p.label p.outcomeErr)) := by
    intro h
    show (discoverAux ps 0 []).result = _
    rw [discoverAux_all_fail ps 0 [] h]
    simp [aggMsg, discoverLines]
  refine ⟨⟨?_, fun h => ⟨_, hall h⟩⟩, hall⟩
  intro ⟨msg, hmsg⟩
  exact discoverAux_error_all_fail ps 0 [] msg hmsg

/-- Witness for C2: the concrete all-failing chain `psFailW` rejects with
the aggregate message listing both providers, one line each. -/
theorem chain_aggregate_iff_witness :
    (getCredentials psFailW none).result =
      .error ("Failed to load any possible AWS credentials:\n    - EnvironmentCredentials(AWS) Error: AWS environment variables not set\n    - EC2MetadataCredentials() IMDSv2 client is disabled via environment: AWS_EC2_METADATA_DISABLED=true") := by
  have h := (chain_aggregate_iff psFailW).2 (by
    intro p hp
    simp only [psFailW, List.mem_cons, List.not_mem_nil, or_false] at hp
    rcases hp with hp | hp <;> exact ⟨_, by rw [hp]⟩)
  rw [h]
  rfl

end CredentialsProviderChain

/-! Helper lemmas about the shared provider cache state machine. -/

namespace EcsTaskCredentials

/-- With no expiry watermark and a settled stored promise, every later call
returns the stored result, starts no `load()`, and leaves the state
unchanged. -/
theorem serveRun_cached (calls : List (Int × Except String Credentials)) :
    ∀ (r : Except String Credentials),
      serveRun ⟨some r, none⟩ calls =
        (List.replicate calls.length (r, false), ⟨some r, none⟩) := by
  induction calls with
  | nil => intro r; simp [serveRun]
  | cons c rest ih =>
    intro r
    obtain ⟨t, lr⟩ := c
    simp [serveRun, getCredentials, ih r, List.replicate_succ]

/-- While a resolution is in flight (promise slot filled, no watermark set),
every call returns the same pending promise and starts nothing. -/
theorem callRun_inflight (ts : List Int) :
    ∀ (p c : Nat),
      callRun ⟨some p, none, c⟩ ts = (List.replicate ts.length p, ⟨some p, none, c⟩) := by
  induction ts with
  | nil => intro p c; simp [callRun]
  | cons t rest ih =>
    intro p c
    simp [callRun, getCredentialsCall, ih p c, List.replicate_succ]

end EcsTaskCredentials

namespace SharedIniFileCredentials

/-- Once the promise slot of `SharedIniFileCredentials` is filled, every call
returns the same stored promise and starts nothing. -/
theorem iniCallRun_inflight (n : Nat) :
    ∀ (p c : Nat),
      callRun ⟨some p, c⟩ n = (List.replicate n p, ⟨some p, c⟩) := by
  induction n with
  | zero => intro p c; simp [callRun]
  | succ n ih =>
    intro p c
    simp [callRun, getCredentialsCall, ih p c, List.replicate_succ]

end SharedIniFileCredentials

/-! Claim theorems about the shared-ini provider. -/

namespace SharedIniFileCredentials

/-- C3 counterexample: in the parsed map `iniDataEmptyKeyW` the section
keyed `default` exists and carries both the access-key-id field and the
secret-key field (the access-key-id one holding the empty string), so the
claim requires resolution to succeed with those values; `load` instead
rejects with the lacks-static-credentials configuration error, because the
source tests the fields with JS truthiness and `""` is falsy. -/
theorem load_empty_field_counterexample :
    lookupSection iniDataEmptyKeyW "default" =
      some ⟨some "", some "wJalrXUtnFEMI", none, none⟩ ∧
    load iniDataEmptyKeyW "default" =
      .error "Profile default lacks static credentials" :=
  ⟨rfl, rfl⟩

/-- C3 amended: the section keyed `profile p` is used if present, else the
section keyed bare `p`; if neither exists, `load` fails with the not-found
error; if a matching section has an access-key-id or secret-key field that
is absent or empty (JS-falsy), `load` fails with the configuration error;
if both fields are present and nonempty, `load` succeeds with those values
plus the optional session token and region. -/
theorem load_characterisation (data : List (String × IniProfileData))
    (p : String) :
    (∀ cfg, data.lookup ("profile " ++ p) = some cfg →
      lookupSection data p = some cfg) ∧
    (data.lookup ("profile " ++ p) = none →
      lookupSection data p = data.lookup p) ∧
    (lookupSection data p = none → load data p = .error (notFoundMsg p)) ∧
    ∀ cfg, lookupSection data p = some cfg →
      ((jsTruthy cfg.aws_access_key_id = false ∨
          jsTruthy cfg.aws_secret_access_key = false) →
        load data p = .error (lacksStaticMsg p)) ∧
      (jsTruthy cfg.aws_access_key_id = true →
        jsTruthy cfg.aws_secret_access_key = true →
        load data p = .ok { awsAccessKeyId := cfg.aws_access_key_id.getD "",
                            awsSecretKey := cfg.aws_secret_access_key.getD "",
                            sessionToken := cfg.aws_session_token,
                            expiresAt := none,
                            region := cfg.region }) := by
  refine ⟨?_, ?_, ?_, ?_⟩
  · intro cfg hcfg
    simp [lookupSection, hcfg]
  · intro hnone
    simp [lookupSection, hnone]
  · intro hnone
    simp [load, hnone]
  · intro cfg hcfg
    constructor
    · intro hfalsy
      have : (!jsTruthy cfg.aws_access_key_id ||
          !jsTruthy cfg.aws_secret_access_key) = true := by
        rcases hfalsy with h | h <;> simp [h]
      simp [load, hcfg, this]
    · intro h1 h2
      simp [load, hcfg, h1, h2]

/-- Witness for C3 (amended): in `iniDataW` the profile `foo` resolves from
the `profile foo` section (which wins over the bare `foo` decoy section) to
its complete static credentials. -/
theorem load_characterisation_witness :
    lookupSection iniDataW "foo" =
      some ⟨some "AKIDEXAMPLE", some "wJalrXUtnFEMI", some "tok", some "eu-west-1"⟩ ∧
    load iniDataW "foo" =
      .ok { awsAccessKeyId := "AKIDEXAMPLE", awsSecretKey := "wJalrXUtnFEMI",
            sessionToken := some "tok", expiresAt := none,
            region := some "eu-west-1" } := by
  have h := load_characterisation iniDataW "foo"
  have hsec : lookupSection iniDataW "foo" =
      some ⟨some "AKIDEXAMPLE", some "wJalrXUtnFEMI", some "tok", some "eu-west-1"⟩ :=
    h.1 _ rfl
  exact ⟨hsec, (h.2.2.2 _ hsec).2 rfl rfl⟩

end SharedIniFileCredentials

/-! Helper lemmas about the IMDSv2 token protocol. -/

namespace IMDSv2

/-- A fetch only ever starts while `cachedToken` is falsy, so the timeout
ternary of `fetchNewToken` always resolves to the strict discovery
timeout. -/
theorem tokenStep_fetch_timeout (inst : Inst) (s : TokenState) (e : TokenEvent)
    (r : FetchRecord) (h : (tokenStep inst s e).2 = some r) :
    r.timeoutMs = inst.timeoutMs := by
  cases e with
  | getToken fresh =>
    by_cases hc : jsTruthy s.cachedToken
    · simp [tokenStep, hc] at h
    · simp only [tokenStep, hc, Bool.false_eq_true, if_false] at h
      cases h
      simp [fetchTimeout, hc]
  | timerFire tok => simp [tokenStep] at h

/-- Every fetch of a run uses the strict discovery timeout. -/
theorem tokenRun_fetch_timeout (inst : Inst) (es : List TokenEvent) :
    ∀ (s : TokenState) (r : FetchRecord),
      r ∈ (tokenRun inst s es).2 → r.timeoutMs = inst.timeoutMs := by
  induction es with
  | nil => intro s r h; simp [tokenRun] at h
  | cons e rest ih =>
    intro s r h
    simp only [tokenRun, List.mem_append] at h
    rcases h with h | h
    · rcases he : (tokenStep inst s e).2 with _ | r2
      · simp [he] at h
      · rw [he] at h
        simp only [Option.toList_some, List.mem_singleton] at h
        exact h ▸ tokenStep_fetch_timeout inst s e r2 he
    · exact ih (tokenStep inst s e).1 r h

/-- A rational strictly inside the lower half of an integer gap rounds
down. -/
theorem roundNE_of_lt_half (q : ℚ) (n : ℤ) (h1 : (n : ℚ) ≤ q)
    (h2 : q < (n : ℚ) + 1 / 2) :
    roundNearestEven q = n := by
  have hfl : ⌊q⌋ = n := Int.floor_eq_iff.mpr ⟨h1, by push_cast; linarith⟩
  simp only [roundNearestEven, hfl]
  rw [if_pos (by push_cast; linarith)]

/-- A rational strictly inside the upper half of an integer gap rounds
up. -/
theorem roundNE_of_half_lt (q : ℚ) (n : ℤ) (h1 : (n : ℚ) + 1 / 2 < q)
    (h2 : q < (n : ℚ) + 1) :
    roundNearestEven q = n + 1 := by
  have hfl : ⌊q⌋ = n := Int.floor_eq_iff.mpr
    ⟨by push_cast; linarith, by push_cast; linarith⟩
  simp only [roundNearestEven, hfl]
  rw [if_neg (by push_cast; linarith), if_pos (by push_cast; linarith)]

/-- A rational exactly halfway between integers, with the lower one even,
rounds to the even one. -/
theorem roundNE_of_tie_even (q : ℚ) (n : ℤ) (hq : q = (n : ℚ) + 1 / 2)
    (he : 2 ∣ n) :
    roundNearestEven q = n := by
  have hfl : ⌊q⌋ = n := Int.floor_eq_iff.mpr
    ⟨by rw [hq]; push_cast; linarith, by rw [hq]; push_cast; linarith⟩
  simp only [roundNearestEven, hfl]
  rw [if_neg (by rw [hq]; push_cast; linarith),
    if_neg (by rw [hq]; push_cast; linarith), if_pos he]

/-- Evaluation of `fl` on a positive value: exhibiting the binade (the power
of two selected from the leading bit) and the rounded significand pins the
result. -/
theorem fl_eq_of_bounds (x : ℚ) (e n : ℤ) (h0 : 0 < x)
    (h1 : (2 : ℚ) ^ (e + 52) ≤ x) (h2 : x < (2 : ℚ) ^ (e + 53))
    (hr : roundNearestEven (x / 2 ^ e) = n) :
    fl x = (n : ℚ) * 2 ^ e := by
  have h1n : ((2 : ℕ) : ℚ) ^ (e + 52) ≤ x := by exact_mod_cast h1
  have h2n : x < ((2 : ℕ) : ℚ) ^ (e + 52 + 1) := by
    rw [show e + 52 + 1 = e + 53 by ring]
    exact_mod_cast h2
  have hlog : Int.log 2 x = e + 52 := by
    have ha := (Int.zpow_le_iff_le_log one_lt_two h0).mp h1n
    have hb := (Int.lt_zpow_iff_log_lt one_lt_two h0).mp h2n
    omega
  have he52 : e + 52 - 52 = e := by ring
  simp only [fl, if_neg h0.ne', abs_of_pos h0, hlog, he52, hr]

/-- The modelled constant `c095` really is the binary64 rounding of the
source literal `0.95` (the mantissa fraction 0.4 rounds down). -/
theorem fl_point95 : fl (19 / 20) = c095 := by
  have h := fl_eq_of_bounds (19 / 20) (-53) 8556839292003942 (by norm_num)
    (by norm_num) (by norm_num)
    (roundNE_of_lt_half _ 8556839292003942 (by norm_num) (by norm_num))
  rw [h]
  simp only [c095]
  norm_num

/-- The binary64 evaluation of `3 * 0.95 * 1000` floors to 2849, one below
the exact `floor(0.95 * 3 * 1000) = 2850`: the first product is a tie that
rounds down to an even significand and the second rounds down again. -/
theorem floatExpire_three :
    Int.floor (fl (fl ((3 : ℚ) * c095) * 1000)) = 2849 := by
  have ha : fl ((3 : ℚ) * c095) = (6417629469002956 : ℚ) * 2 ^ (-51 : ℤ) :=
    fl_eq_of_bounds _ (-51) _ (by norm_num [c095]) (by norm_num [c095])
      (by norm_num [c095])
      (roundNE_of_tie_even _ 6417629469002956 (by norm_num [c095]) (by decide))
  have hb : fl ((6417629469002956 : ℚ) * 2 ^ (-51 : ℤ) * 1000) =
      (6267216278323199 : ℚ) * 2 ^ (-41 : ℤ) :=
    fl_eq_of_bounds _ (-41) _ (by norm_num) (by norm_num) (by norm_num)
      (roundNE_of_lt_half _ 6267216278323199 (by norm_num) (by norm_num))
  rw [ha, hb]
  exact Int.floor_eq_iff.mpr ⟨by norm_num, by norm_num⟩

/-- The binary64 evaluation of `21600 * 0.95 * 1000` is exactly 20520000:
the first product rounds up onto the representable integer 20520 and the
second product is exact. -/
theorem floatExpire_21600 :
    Int.floor (fl (fl ((21600 : ℚ) * c095) * 1000)) = 20520000 := by
  have hr1 : roundNearestEven (((21600 : ℚ) * c095) / 2 ^ (-38 : ℤ)) =
      5640494650490880 := by
    have h := roundNE_of_half_lt (((21600 : ℚ) * c095) / 2 ^ (-38 : ℤ))
      5640494650490879 (by norm_num [c095]) (by norm_num [c095])
    exact h.trans (by norm_num)
  have ha : fl ((21600 : ℚ) * c095) = 20520 := by
    have h := fl_eq_of_bounds ((21600 : ℚ) * c095) (-38) 5640494650490880
      (by norm_num [c095]) (by norm_num [c095]) (by norm_num [c095]) hr1
    rw [h]
    norm_num
  have hb : fl ((20520 : ℚ) * 1000) = 20520000 := by
    have h := fl_eq_of_bounds ((20520 : ℚ) * 1000) (-28) 5508295557120000
      (by norm_num) (by norm_num) (by norm_num)
      (roundNE_of_lt_half _ 5508295557120000 (by norm_num) (by norm_num))
    rw [h]
    norm_num
  rw [ha, hb]
  exact Int.floor_eq_iff.mpr ⟨by norm_num, by norm_num⟩

/-- At the default TTL request of 21600 seconds the binary64 expiry value
is exactly 20520000 ms. -/
theorem fetchExpireAfterMillis_21600 (inst : Inst)
    (h : inst.tokenTtlSeconds = 21600) :
    fetchExpireAfterMillis inst = 20520000 := by
  simp only [fetchExpireAfterMillis, h, Nat.cast_ofNat]
  exact floatExpire_21600

/-- At a TTL request of 3 seconds the binary64 expiry value is 2849 ms. -/
theorem fetchExpireAfterMillis_three (inst : Inst)
    (h : inst.tokenTtlSeconds = 3) :
    fetchExpireAfterMillis inst = 2849 := by
  simp only [fetchExpireAfterMillis, h, Nat.cast_ofNat]
  exact floatExpire_three

end IMDSv2

/-! Claim theorems about the shared cache/expiry state machine. -/

namespace EcsTaskCredentials

/-- C4: after a resolution started from an empty cache slot succeeds at `t0`
with a credential expiring at `T` in the future, the recorded watermark is
`T - 60s`; a call at any time strictly before the watermark returns the
cached credential without starting a new underlying operation, and a call at
any time strictly after it discards the cached value and performs a fresh
resolution, returning the fresh outcome. -/
theorem watermark_refresh (t0 T now1 now2 : Int) (c : Credentials)
    (lr1 lr2 : Except String Credentials)
    (hexp : c.expiresAt = some T) (hfuture : t0 < T)
    (h1 : now1 < T - 60000) (h2 : T - 60000 < now2) :
    (getCredentials t0 (.ok c) ⟨none, none⟩).2.1 =
      ⟨some (.ok c), some (T - 60000)⟩ ∧
    getCredentials now1 lr1 ⟨some (.ok c), some (T - 60000)⟩ =
      (.ok c, ⟨some (.ok c), some (T - 60000)⟩, false) ∧
    (getCredentials now2 lr2 ⟨some (.ok c), some (T - 60000)⟩).1 = lr2 ∧
    (getCredentials now2 lr2 ⟨some (.ok c), some (T - 60000)⟩).2.2 = true := by
  refine ⟨?_, ?_, ?_, ?_⟩
  · simp [getCredentials, hexp, hfuture]
  · simp [getCredentials, show ¬(T - 60000 < now1) by omega]
  · cases lr2 <;> simp [getCredentials, h2]
  · cases lr2 <;> simp [getCredentials, h2]

/-- Witness for C4: success at time 0 with expiry `T = 100000` ms; the call
at `T - 61000` (strictly before the watermark `T - 60000 = 40000`) is served
from cache, the call at `T - 59000` re-resolves. -/
theorem watermark_refresh_witness :
    (getCredentials 0
        (.ok { awsAccessKeyId := "AKIDEXAMPLE", awsSecretKey := "wJalrXUtnFEMI",
               expiresAt := some 100000 }) ⟨none, none⟩).2.1 =
      ⟨some (.ok { awsAccessKeyId := "AKIDEXAMPLE", awsSecretKey := "wJalrXUtnFEMI",
                   expiresAt := some 100000 }), some 40000⟩ ∧
    getCredentials 39000 (.error "Error: ECS service endpoint returned HTTP 500")
        ⟨some (.ok { awsAccessKeyId := "AKIDEXAMPLE", awsSecretKey := "wJalrXUtnFEMI",
                     expiresAt := some 100000 }), some 40000⟩ =
      (.ok { awsAccessKeyId := "AKIDEXAMPLE", awsSecretKey := "wJalrXUtnFEMI",
             expiresAt := some 100000 },
       ⟨some (.ok { awsAccessKeyId := "AKIDEXAMPLE", awsSecretKey := "wJalrXUtnFEMI",
                    expiresAt := some 100000 }), some 40000⟩, false) ∧
    (getCredentials 41000 (.error "Error: ECS service endpoint returned HTTP 500")
        ⟨some (.ok { awsAccessKeyId := "AKIDEXAMPLE", awsSecretKey := "wJalrXUtnFEMI",
                     expiresAt := some 100000 }), some 40000⟩).1 =
      .error "Error: ECS service endpoint returned HTTP 500" ∧
    (getCredentials 41000 (.error "Error: ECS service endpoint returned HTTP 500")
        ⟨some (.ok { awsAccessKeyId := "AKIDEXAMPLE", awsSecretKey := "wJalrXUtnFEMI",
                     expiresAt := some 100000 }), some 40000⟩).2.2 = true := by
  have h := watermark_refresh 0 100000 39000 41000
    { awsAccessKeyId := "AKIDEXAMPLE", awsSecretKey := "wJalrXUtnFEMI",
      expiresAt := some 100000 }
    (.error "Error: ECS service endpoint returned HTTP 500")
    (.error "Error: ECS service endpoint returned HTTP 500")
    rfl (by norm_num) (by norm_num) (by norm_num)
  simpa using h

/-- C5: after a resolution started from an empty cache slot fails at `t0`,
the failure and a watermark of `t0 + 30s` are recorded; every call until the
watermark (inclusive) is rejected with the same cached failure and starts no
new underlying operation, and a call at any time strictly after it clears
the cached failure and performs a fresh request, caching and returning the
fresh outcome. -/
theorem negative_cache (t0 now1 now2 : Int) (e : String)
    (lr1 lr2 : Except String Credentials)
    (h1 : now1 ≤ t0 + 30000) (h2 : t0 + 30000 < now2) :
    getCredentials t0 (.error e) ⟨none, none⟩ =
      (.error e, ⟨some (.error e), some (t0 + 30000)⟩, true) ∧
    getCredentials now1 lr1 ⟨some (.error e), some (t0 + 30000)⟩ =
      (.error e, ⟨some (.error e), some (t0 + 30000)⟩, false) ∧
    (getCredentials now2 lr2 ⟨some (.error e), some (t0 + 30000)⟩).1 = lr2 ∧
    (getCredentials now2 lr2 ⟨some (.error e), some (t0 + 30000)⟩).2.2 = true ∧
    (getCredentials now2 lr2 ⟨some (.error e), some (t0 + 30000)⟩).2.1.promise =
      some lr2 := by
  refine ⟨?_, ?_, ?_, ?_, ?_⟩
  · simp [getCredentials]
  · simp [getCredentials, show ¬(t0 + 30000 < now1) by omega]
  · cases lr2 <;> simp [getCredentials, h2]
  · cases lr2 <;> simp [getCredentials, h2]
  · cases lr2 <;> simp [getCredentials, h2]

/-- Witness for C5: failure at time 0; the call 10 seconds later replays the
cached failure with no new request, the call 31 seconds later re-issues the
request and obtains the fresh outcome. -/
theorem negative_cache_witness :
    getCredentials 0 (.error "Error: ECS service endpoint returned HTTP 500")
        ⟨none, none⟩ =
      (.error "Error: ECS service endpoint returned HTTP 500",
       ⟨some (.error "Error: ECS service endpoint returned HTTP 500"), some 30000⟩,
       true) ∧
    getCredentials 10000 (.ok credW)
        ⟨some (.error "Error: ECS service endpoint returned HTTP 500"), some 30000⟩ =
      (.error "Error: ECS service endpoint returned HTTP 500",
       ⟨some (.error "Error: ECS service endpoint returned HTTP 500"), some 30000⟩,
       false) ∧
    (getCredentials 31000 (.ok credW)
        ⟨some (.error "Error: ECS service endpoint returned HTTP 500"), some 30000⟩).1 =
      .ok credW ∧
    (getCredentials 31000 (.ok credW)
        ⟨some (.error "Error: ECS service endpoint returned HTTP 500"), some 30000⟩).2.2 =
      true ∧
    (getCredentials 31000 (.ok credW)
        ⟨some (.error "Error: ECS service endpoint returned HTTP 500"), some 30000⟩).2.1.promise =
      some (.ok credW) := by
  have h := negative_cache 0 10000 31000
    "Error: ECS service endpoint returned HTTP 500" (.ok credW) (.ok credW)
    (by norm_num) (by norm_num)
  simpa using h

/-- C6: resolve calls issued while the first resolution of a provider is
still in flight all receive the same shared pending promise, exactly one
underlying operation is started, and the promise slot holds that single
operation afterwards — for the network-provider slot (with its expiry
discard step) and for the shared-ini file slot alike. -/
theorem single_flight (t : Int) (ts : List Int) (n : Nat) :
    (callRun ⟨none, none, 0⟩ (t :: ts)).1 = List.replicate (ts.length + 1) 0 ∧
    (callRun ⟨none, none, 0⟩ (t :: ts)).2 = ⟨some 0, none, 1⟩ ∧
    (SharedIniFileCredentials.callRun ⟨none, 0⟩ (n + 1)).1 =
      List.replicate (n + 1) 0 ∧
    (SharedIniFileCredentials.callRun ⟨none, 0⟩ (n + 1)).2 = ⟨some 0, 1⟩ := by
  have hfirst : getCredentialsCall t ⟨none, none, 0⟩ = (0, ⟨some 0, none, 1⟩) := rfl
  have hini : SharedIniFileCredentials.getCredentialsCall ⟨none, 0⟩ =
      (0, ⟨some 0, 1⟩) := rfl
  refine ⟨?_, ?_, ?_, ?_⟩ <;>
    simp [callRun, SharedIniFileCredentials.callRun, hfirst, hini,
      callRun_inflight, SharedIniFileCredentials.iniCallRun_inflight,
      List.replicate_succ]

/-- C10: when a resolution started from an empty cache slot (the only state
in which `load()` ever starts: both fields null, initially or right after a
discard) succeeds at time `now`, a watermark is recorded iff the resolved
credential carries an `expiresAt` strictly in the future, in which case it
equals `expiresAt - 60s`; when `expiresAt` is absent or not in the future no
watermark is recorded, and the cached success is then served to every later
call with no re-resolution ever started. -/
theorem watermark_only_when_future (now : Int) (x : Credentials) :
    (getCredentials now (.ok x) ⟨none, none⟩).1 = .ok x ∧
    (getCredentials now (.ok x) ⟨none, none⟩).2.2 = true ∧
    (getCredentials now (.ok x) ⟨none, none⟩).2.1.promise = some (.ok x) ∧
    ((getCredentials now (.ok x) ⟨none, none⟩).2.1.expireAfter ≠ none ↔
      ∃ t, x.expiresAt = some t ∧ now < t) ∧
    (∀ t, x.expiresAt = some t → now < t →
      (getCredentials now (.ok x) ⟨none, none⟩).2.1.expireAfter =
        some (t - 60000)) ∧
    ((getCredentials now (.ok x) ⟨none, none⟩).2.1.expireAfter = none →
      ∀ calls, serveRun (getCredentials now (.ok x) ⟨none, none⟩).2.1 calls =
        (List.replicate calls.length (.ok x, false),
         (getCredentials now (.ok x) ⟨none, none⟩).2.1)) := by
  rcases hx : x.expiresAt with _ | t
  · have hst : getCredentials now (.ok x) ⟨none, none⟩ =
        (.ok x, ⟨some (.ok x), none⟩, true) := by
      simp [getCredentials, hx]
    rw [hst]
    refine ⟨rfl, rfl, rfl, ?_, ?_, ?_⟩
    · simp [hx]
    · intro t2 ht2; cases ht2
    · intro _ calls; exact serveRun_cached calls _
  · by_cases hfut : now < t
    · have hst : getCredentials now (.ok x) ⟨none, none⟩ =
          (.ok x, ⟨some (.ok x), some (t - 60000)⟩, true) := by
        simp [getCredentials, hx, hfut]
      rw [hst]
      refine ⟨rfl, rfl, rfl, ?_, ?_, ?_⟩
      · simp [hx, hfut]
      · intro t2 ht2
        injection ht2 with ht2
        subst ht2
        intro _; rfl
      · intro habs; exact absurd habs (by simp)
    · have hst : getCredentials now (.ok x) ⟨none, none⟩ =
          (.ok x, ⟨some (.ok x), none⟩, true) := by
        simp [getCredentials, hx, hfut]
      rw [hst]
      refine ⟨rfl, rfl, rfl, ?_, ?_, ?_⟩
      · simp [hx, hfut]
      · intro t2 ht2
        injection ht2 with ht2
        subst ht2
        intro hlt; exact absurd hlt hfut
      · intro _ calls; exact serveRun_cached calls _

/-- Witness for C10: a credential with no `expiresAt` resolved at time 0 is
cached with no watermark and served unchanged to two later calls, with no
further resolution started. -/
theorem watermark_only_when_future_witness :
    (getCredentials 0 (.ok credW) ⟨none, none⟩).2.1.expireAfter = none ∧
    serveRun (getCredentials 0 (.ok credW) ⟨none, none⟩).2.1
        [(5000, .error "Error: ECS service endpoint returned HTTP 500"),
         (999999999, .error "Error: ECS service endpoint returned HTTP 500")] =
      (List.replicate 2 (.ok credW, false),
       (getCredentials 0 (.ok credW) ⟨none, none⟩).2.1) := by
  have h := watermark_only_when_future 0 credW
  have hnone : (getCredentials 0 (.ok credW) ⟨none, none⟩).2.1.expireAfter = none :=
    rfl
  exact ⟨hnone, h.2.2.2.2.2 hnone _⟩

end EcsTaskCredentials

/-! Claim theorems about the IMDSv2 token protocol. -/

namespace IMDSv2

/-- C7 counterexample: a client constructed with requested TTL
`ttlSeconds = 3` (every other option defaulted) schedules the invalidation
of a fetched token `max(1000, 2849) = 2849` ms after acquisition, while the
formula of the claim gives `max(1000, floor(0.95 * 3 * 1000)) = 2850` ms:
the binary64 products in `fetchNewToken` round below the exact value. -/
theorem token_invalidation_delay_counterexample :
    (tokenStep ttl3Inst ⟨none⟩ (.getToken "tok")).2 = some ⟨1000, 2849⟩ ∧
    max 1000 (Int.floor ((95 / 100 : ℚ) * 3 * 1000)) = 2850 ∧
    (2849 : Int) ≠ 2850 := by
  refine ⟨?_, ?_, by decide⟩
  · rw [show (tokenStep ttl3Inst ⟨none⟩ (.getToken "tok")).2 =
        some ⟨1000, max 1000 (fetchExpireAfterMillis ttl3Inst)⟩ from rfl,
      fetchExpireAfterMillis_three ttl3Inst rfl,
      max_eq_right (by norm_num : (1000 : ℤ) ≤ 2849)]
  · rw [show ((95 / 100 : ℚ) * 3 * 1000) = ((2850 : ℤ) : ℚ) by norm_num,
      Int.floor_intCast]
    norm_num

/-- C7 (amended): whenever `getToken` performs a token fetch, the proactive
invalidation of the cached token is scheduled exactly
`max(1000, Math.floor(ttlSeconds * 0.95 * 1000))` milliseconds after
acquisition with the products evaluated in binary64 arithmetic — a value
that can fall 1 ms below the exact `floor(0.95 * ttlSeconds * 1000)` — and
never at the full TTL beyond the 1-second minimum; in particular for
`ttlSeconds = 21600` the delay is exactly `0.95 * 21600 * 1000 = 20520000`
ms, not the full TTL of `21600 * 1000` ms. -/
theorem token_invalidation_delay (inst : Inst) (s : TokenState)
    (e : TokenEvent) (r : FetchRecord) (h : (tokenStep inst s e).2 = some r) :
    r.scheduledDelayMs =
      max 1000 (Int.floor (fl (fl ((inst.tokenTtlSeconds : ℚ) * c095) * 1000))) ∧
    (inst.tokenTtlSeconds = 21600 →
      r.scheduledDelayMs = 20520000 ∧ r.scheduledDelayMs ≠ 21600 * 1000) := by
  have hdelay : r.scheduledDelayMs = max 1000 (fetchExpireAfterMillis inst) := by
    cases e with
    | getToken fresh =>
      by_cases hc : jsTruthy s.cachedToken
      · simp [tokenStep, hc] at h
      · simp only [tokenStep, hc, Bool.false_eq_true, if_false] at h
        cases h
        rfl
    | timerFire tok => simp [tokenStep] at h
  refine ⟨by rw [hdelay]; rfl, ?_⟩
  intro httl
  rw [hdelay, fetchExpireAfterMillis_21600 inst httl,
    max_eq_right (by norm_num : (1000 : ℤ) ≤ 20520000)]
  exact ⟨rfl, by norm_num⟩

/-- Witness for C7 (amended): the default client (`ttlSeconds = 21600`)
fetching a token from the empty cache schedules its invalidation exactly
20520000 ms later, not at the full TTL. -/
theorem token_invalidation_delay_witness :
    (tokenStep defaultInst ⟨none⟩ (.getToken "AQAEA-token")).2 =
      some ⟨1000, 20520000⟩ ∧
    (20520000 : Int) ≠ 21600 * 1000 := by
  have hD : max 1000 (fetchExpireAfterMillis defaultInst) = (20520000 : Int) := by
    rw [fetchExpireAfterMillis_21600 defaultInst rfl]
    exact max_eq_right (by norm_num)
  have hfetch : (tokenStep defaultInst ⟨none⟩ (.getToken "AQAEA-token")).2 =
      some ⟨1000, 20520000⟩ := by
    rw [show (tokenStep defaultInst ⟨none⟩ (.getToken "AQAEA-token")).2 =
        some ⟨1000, max 1000 (fetchExpireAfterMillis defaultInst)⟩ from rfl, hD]
  have h := token_invalidation_delay defaultInst ⟨none⟩ (.getToken "AQAEA-token")
    ⟨1000, 20520000⟩ hfetch
  exact ⟨hfetch, (h.2 rfl).2⟩

/-- C8 counterexample: with the default configuration, run a first token
fetch, let its invalidation timer fire, then fetch again: both the first and
the later token fetch use the strict 1000 ms discovery timeout, while the
claim requires every later token fetch to use the 5000 ms per-call timeout.
(`getToken` only ever fetches when `cachedToken` is falsy, so the
`apiTimeoutMs` branch of the ternary in `fetchNewToken` cannot fire.) -/
theorem later_token_fetch_counterexample :
    ((tokenRun defaultInst ⟨none⟩
        [.getToken "tokA", .timerFire "tokA", .getToken "tokB"]).2.map
      FetchRecord.timeoutMs) = [1000, 1000] ∧
    defaultInst.apiTimeoutMs = 5000 ∧ (1000 : Int) ≠ 5000 := by
  refine ⟨by decide, rfl, by decide⟩

/-- C8 amended: every token fetch performed through `getToken` — the very
first and every later one alike — uses the strict discovery timeout
(default 1000 ms), because the cached token is always falsy by the time a
fetch starts; the generous per-call timeout is never used for a token
fetch. -/
theorem token_fetch_timeout_strict (inst : Inst) (s : TokenState)
    (es : List TokenEvent) (r : FetchRecord)
    (h : r ∈ (tokenRun inst s es).2) :
    r.timeoutMs = inst.timeoutMs :=
  tokenRun_fetch_timeout inst es s r h

/-- Witness for C8 (amended): in the two-fetch run of the counterexample,
the later fetch also used the discovery timeout of the default client. -/
theorem token_fetch_timeout_strict_witness :
    (⟨1000, 20520000⟩ : FetchRecord) ∈
      (tokenRun defaultInst ⟨none⟩
        [.getToken "tokA", .timerFire "tokA", .getToken "tokB"]).2 ∧
    (⟨1000, 20520000⟩ : FetchRecord).timeoutMs = defaultInst.timeoutMs := by
  have hD : max 1000 (fetchExpireAfterMillis defaultInst) = (20520000 : Int) := by
    rw [fetchExpireAfterMillis_21600 defaultInst rfl]
    exact max_eq_right (by norm_num)
  have hrun : (tokenRun defaultInst ⟨none⟩
      [.getToken "tokA", .timerFire "tokA", .getToken "tokB"]).2 =
      [⟨1000, 20520000⟩, ⟨1000, 20520000⟩] := by
    rw [show (tokenRun defaultInst ⟨none⟩
        [.getToken "tokA", .timerFire "tokA", .getToken "tokB"]).2 =
        [⟨1000, max 1000 (fetchExpireAfterMillis defaultInst)⟩,
         ⟨1000, max 1000 (fetchExpireAfterMillis defaultInst)⟩] from rfl, hD]
  have hmem : (⟨1000, 20520000⟩ : FetchRecord) ∈
      (tokenRun defaultInst ⟨none⟩
        [.getToken "tokA", .timerFire "tokA", .getToken "tokB"]).2 := by
    rw [hrun]
    exact List.mem_cons_self _ _
  exact ⟨hmem, token_fetch_timeout_strict defaultInst ⟨none⟩ _ _ hmem⟩

end IMDSv2

/-! Claim theorem about the metadata kill switch. -/

namespace EC2MetadataCredentials

/-- C9: when the environment sets `AWS_EC2_METADATA_DISABLED` to the string
`true`, the `IMDSv2` constructor throws immediately — its result is computed
from options and environment alone, so no client instance, and hence no
network request, is ever produced — and `EC2MetadataCredentials`
construction, which defaults its client to `new IMDSv2`, throws the same
error before any resolution is attempted; in a discovery pass where every
provider fails, the chain therefore records a labeled failure line carrying
this message for the EC2 provider inside the aggregate error. -/
theorem disabled_by_environment (env : EnvMap) (opts : IMDSv2.Opts)
    (h : env "AWS_EC2_METADATA_DISABLED" = some "true")
    (ps : List ProviderSpec) (lbl : String)
    (hmem : (⟨lbl, .error IMDSv2.disabledMsg⟩ : ProviderSpec) ∈ ps)
    (hall : ∀ p ∈ ps, ∃ e, p.outcome = .error e) :
    IMDSv2.construct env opts = .error IMDSv2.disabledMsg ∧
    construct env none = .error IMDSv2.disabledMsg ∧
    (CredentialsProviderChain.getCredentials ps none).result =
      .error (CredentialsProviderChain.aggMsg
        (CredentialsProviderChain.discoverLines ps)) ∧
    CredentialsProviderChain.errLine lbl IMDSv2.disabledMsg ∈
      CredentialsProviderChain.discoverLines ps := by
  refine ⟨by simp [IMDSv2.construct, h], by simp [construct, IMDSv2.construct, h],
    ?_, ?_⟩
  · show (CredentialsProviderChain.discoverAux ps 0 []).result = _
    rw [CredentialsProviderChain.discoverAux_all_fail ps 0 [] hall]
    simp
  · refine List.mem_map.mpr ⟨⟨lbl, .error IMDSv2.disabledMsg⟩, hmem, ?_⟩
    rfl

/-- Witness for C9: the concrete environment `envDisabledW` and the concrete
all-failing chain `psFailW` containing the EC2 provider with the disabled
message. -/
theorem disabled_by_environment_witness :
    IMDSv2.construct envDisabledW {} = .error IMDSv2.disabledMsg ∧
    construct envDisabledW none = .error IMDSv2.disabledMsg ∧
    CredentialsProviderChain.errLine "EC2MetadataCredentials()" IMDSv2.disabledMsg ∈
      CredentialsProviderChain.discoverLines psFailW := by
  have h := disabled_by_environment envDisabledW {} rfl psFailW
    "EC2MetadataCredentials()"
    (by simp [psFailW])
    (by
      intro p hp
      simp only [psFailW, List.mem_cons, List.not_mem_nil, or_false] at hp
      rcases hp with hp | hp <;> exact ⟨_, by rw [hp]⟩)
  exact ⟨h.1, h.2.1, h.2.2.2⟩

end EC2MetadataCredentials

end AwsApi
